import Mathlib

/-!
A shallow embedding of `src/dog_watch.py` (DogWatch): the per-cycle
detection pipeline, the privacy gate, the bounded frame store with
oldest-first pruning, the notification throttle and the status publisher.

Modelling choices: machine floats (confidences, normalized coordinates,
`time.time()` values) become rationals; the on-disk frame directory becomes
an association list from the numeric timestamp key encoded in the filename
(`dog_YYYYMMDD_HHMMSS.jpg` is a fixed-width decimal rendering of that key,
so lexicographic order on the filenames coincides with numeric order on the
keys) to the saved bytes; one iteration of the `while True` loop in `main`
becomes a pure function from the cycle's inputs to the list of observable
events it emits together with the updated loop state.  The audio alert path
is omitted: `AUDIO_ENABLED = False` in the source, so `play_alert` returns
immediately.  An exception escaping the loop body is modelled by the
`Except` result of the decoder — the only input-driven exception source in
the loop — and reaches the `except` clause, which logs and continues.
-/

/-- A bounding box or region `(x1, y1, x2, y2)` with coordinates given as
fractions of the frame dimensions, as used throughout `dog_watch.py`. -/
structure Rect where
  x1 : ℚ
  y1 : ℚ
  x2 : ℚ
  y2 : ℚ
deriving DecidableEq

/-- `bbox_overlap_fraction(dog_bbox, roi)` from `dog_watch.py`: the fraction
of the dog bbox that overlaps the ROI; `0` when the intersection is empty or
the dog box area is degenerate, otherwise `intersection / dog_area`. -/
def bbox_overlap_fraction (dog_bbox roi : Rect) : ℚ :=
  let ix1 := max dog_bbox.x1 roi.x1
  let iy1 := max dog_bbox.y1 roi.y1
  let ix2 := min dog_bbox.x2 roi.x2
  let iy2 := min dog_bbox.y2 roi.y2
  if ix1 ≥ ix2 ∨ iy1 ≥ iy2 then 0
  else
    let intersection := (ix2 - ix1) * (iy2 - iy1)
    let dog_area := (dog_bbox.x2 - dog_bbox.x1) * (dog_bbox.y2 - dog_bbox.y1)
    if dog_area ≤ 0 then 0
    else intersection / dog_area

/-- A rectangle normalized to the unit square with ordered corners, the
shape documented for detections and the ROI. -/
def NormalizedRect (r : Rect) : Prop :=
  0 ≤ r.x1 ∧ r.x1 ≤ r.x2 ∧ r.x2 ≤ 1 ∧ 0 ≤ r.y1 ∧ r.y1 ≤ r.y2 ∧ r.y2 ≤ 1

instance (r : Rect) : Decidable (NormalizedRect r) := by
  unfold NormalizedRect; infer_instance

/-- Closed rectangles `b` and `r` share no point at all. -/
def RectDisjoint (b r : Rect) : Prop :=
  b.x2 < r.x1 ∨ r.x2 < b.x1 ∨ b.y2 < r.y1 ∨ r.y2 < b.y1

instance (b r : Rect) : Decidable (RectDisjoint b r) := by
  unfold RectDisjoint; infer_instance

/-- Rectangle `b` lies fully inside rectangle `r`. -/
def RectInside (b r : Rect) : Prop :=
  r.x1 ≤ b.x1 ∧ b.x2 ≤ r.x2 ∧ r.y1 ≤ b.y1 ∧ b.y2 ≤ r.y2

instance (b r : Rect) : Decidable (RectInside b r) := by
  unfold RectInside; infer_instance

/-- One decoded detection `(label, confidence, bbox)` as produced by
`parse_detections`. -/
structure Detection where
  label : String
  score : ℚ
  bbox : Rect
deriving DecidableEq

/-- The configuration surface of `dog_watch.py`, with the module-level
constant values as defaults: `DOG_CLASS`, `PERSON_CLASS`,
`DOG_CONFIDENCE_THRESHOLD = 0.50`, `PERSON_CONFIDENCE_THRESHOLD = 0.30`,
`COUCH_ROI = (0, 0, 1, 1)`, `ROI_OVERLAP_THRESHOLD = 0.5`,
`NOTIFY_COOLDOWN = 60`, `MAX_KEPT_FRAMES = 10`. -/
structure Config where
  dog_class : String := "dog"
  person_class : String := "person"
  dog_confidence_threshold : ℚ := 1/2
  person_confidence_threshold : ℚ := 3/10
  couch_roi : Rect := ⟨0, 0, 1, 1⟩
  roi_overlap_threshold : ℚ := 1/2
  notify_cooldown : ℚ := 60
  max_kept_frames : Nat := 10

/-- The configuration actually baked into `dog_watch.py`. -/
def dogwatch_config : Config := {}

/-- The triple returned by `analyze_frame`: dogs counted inside the ROI,
their peak confidence, and whether any human was seen. -/
structure AnalysisResult where
  dog_count : Nat
  max_dog_confidence : ℚ
  human_detected : Bool
deriving DecidableEq

/-- One pass of the `for label, score, bbox in detections` loop body of
`analyze_frame`: the person check is a plain `if` (no ROI involved), the dog
check is a nested `if` on threshold and then on ROI overlap. -/
def analyze_step (cfg : Config) (acc : AnalysisResult) (d : Detection) : AnalysisResult :=
  let acc1 :=
    if d.label = cfg.person_class ∧ d.score ≥ cfg.person_confidence_threshold then
      { acc with human_detected := true }
    else acc
  if d.label = cfg.dog_class ∧ d.score ≥ cfg.dog_confidence_threshold then
    if bbox_overlap_fraction d.bbox cfg.couch_roi ≥ cfg.roi_overlap_threshold then
      { acc1 with
          dog_count := acc1.dog_count + 1
          max_dog_confidence := max acc1.max_dog_confidence d.score }
    else acc1
  else acc1

/-- The detection loop of `analyze_frame` over an already-decoded detection
list, starting from `dog_count = 0`, `max_dog_confidence = 0.0`,
`human_detected = False`. -/
def analyze_detections (cfg : Config) (dets : List Detection) : AnalysisResult :=
  dets.foldl (analyze_step cfg) ⟨0, 0, false⟩

/-- The raw inference output of one cycle once present: the four parallel
arrays `boxes`, `classes`, `scores` and the declared detection count `num`
read off `np_outputs` in `parse_detections`. -/
structure RawOutput where
  boxes : List Rect
  classes : List Nat
  scores : List ℚ
  num : Nat
deriving DecidableEq

/-- The exception raised when the declared count indexes past the end of one
of the parallel arrays (an `IndexError` in the source). -/
inductive DecodeError where
  | indexOutOfRange
deriving DecidableEq

/-- Label lookup of `parse_detections`: `intrinsics.labels[class_id]` when in
range, else the synthetic `unknown(id)` label. -/
def resolve_label (labels : List String) (class_id : Nat) : String :=
  if h : class_id < labels.length then labels.get ⟨class_id, h⟩
  else "unknown(" ++ toString class_id ++ ")"

/-- `parse_detections` from `dog_watch.py`: `None` output (firmware still
loading) is an empty detection list; otherwise the first `num` entries of the
parallel arrays are decoded, and indexing past the end of any array raises. -/
def parse_detections (labels : List String) (raw : Option RawOutput) :
    Except DecodeError (List Detection) :=
  match raw with
  | none => .ok []
  | some r =>
    if r.num ≤ r.boxes.length ∧ r.num ≤ r.classes.length ∧ r.num ≤ r.scores.length then
      .ok ((List.range r.num).map fun i =>
        { label := resolve_label labels (r.classes.getD i 0)
          score := r.scores.getD i 0
          bbox := r.boxes.getD i ⟨0, 0, 0, 0⟩ })
    else .error .indexOutOfRange

/-- `analyze_frame` from `dog_watch.py`: decode, then run the threshold/ROI
loop; a decode failure propagates to the caller. -/
def analyze_frame (cfg : Config) (labels : List String) (raw : Option RawOutput) :
    Except DecodeError AnalysisResult :=
  (parse_detections labels raw).map (analyze_detections cfg)

/-- The result of `datetime.now()` at the moment a frame is captured, split
into the calendar fields that `strftime` can render; `micro` holds the
sub-second part, which `%Y%m%d_%H%M%S` discards. -/
structure DateTime where
  year : Nat
  month : Nat
  day : Nat
  hour : Nat
  minute : Nat
  second : Nat
  micro : Nat
deriving DecidableEq

/-- The numeric key encoded in the frame filename
`dog_<YYYYMMDD>_<HHMMSS>.jpg` built by `main` via
`ts.strftime('%Y%m%d_%H%M%S')`: the fixed-width decimal rendering of this
number (year zero-padded to four digits and every other field to two) is
exactly the digit part of the filename, so lexicographic order on the
filenames agrees with numeric order on the keys. -/
def frame_filename_key (ts : DateTime) : Nat :=
  ((((ts.year * 100 + ts.month) * 100 + ts.day) * 100 + ts.hour) * 100
      + ts.minute) * 100 + ts.second

/-- Two capture timestamps fall within the same wall-clock second: all
fields that `%Y%m%d_%H%M%S` renders agree, only `micro` may differ. -/
def SameSecond (t1 t2 : DateTime) : Prop :=
  t1.year = t2.year ∧ t1.month = t2.month ∧ t1.day = t2.day ∧
  t1.hour = t2.hour ∧ t1.minute = t2.minute ∧ t1.second = t2.second

instance (t1 t2 : DateTime) : Decidable (SameSecond t1 t2) := by
  unfold SameSecond; infer_instance

/-- The frame directory: the `dog_*.jpg` files, as an association list from
the filename key to the saved bytes (bytes abstracted as a number). -/
abbrev FrameDir := List (Nat × Nat)

/-- `img.save(filepath)`: writing a file overwrites an existing file of the
same name in place, otherwise it creates a new directory entry. -/
def write_frame (dir : FrameDir) (name bytes : Nat) : FrameDir :=
  if dir.any (fun e => e.1 = name) then
    dir.map (fun e => if e.1 = name then (name, bytes) else e)
  else dir ++ [(name, bytes)]

/-- Reading a frame artifact back by filename. -/
def read_frame (dir : FrameDir) (name : Nat) : Option Nat :=
  (dir.find? (fun e => e.1 = name)).map (fun e => e.2)

/-- Filename order on directory entries: the order `sorted(...)` uses in
`prune_old_frames` (lexicographic on the fixed-width filenames, hence
numeric on the keys). -/
def key_le (a b : Nat × Nat) : Prop := a.1 ≤ b.1

instance : DecidableRel key_le := fun a b => by
  unfold key_le; infer_instance

instance : IsTotal (Nat × Nat) key_le :=
  ⟨fun a b => Nat.le_total a.1 b.1⟩

instance : IsTrans (Nat × Nat) key_le :=
  ⟨fun _ _ _ h1 h2 => Nat.le_trans h1 h2⟩

/-- `prune_old_frames` from `dog_watch.py`: sort the `dog_*.jpg` entries by
filename and unlink from the front while more than `MAX_KEPT_FRAMES` remain.
Returns `(kept, evicted)`; the evicted entries are listed in the order they
were unlinked (front of the sorted list first). -/
def prune_old_frames (max_kept : Nat) (dir : FrameDir) : FrameDir × FrameDir :=
  let s := List.insertionSort key_le dir
  (s.drop (s.length - max_kept), s.take (s.length - max_kept))

/-- The status document written by `update_status` (the JSON object of
`status.json`). -/
structure SystemStatus where
  dog_detected : Bool
  dog_count : Nat
  human_detected : Bool
  recording_active : Bool
  privacy_mode : Bool
  last_dog_seen : Option DateTime
  timestamp : DateTime
deriving DecidableEq

/-- `update_status` from `dog_watch.py`: the full document rewritten each
cycle (atomically, via a temp file and `os.rename`). -/
def update_status (dog_count : Nat) (human_present : Bool)
    (last_dog_time : Option DateTime) (now : DateTime) : SystemStatus :=
  { dog_detected := decide (dog_count > 0)
    dog_count := dog_count
    human_detected := human_present
    recording_active := decide (dog_count > 0) && !human_present
    privacy_mode := human_present
    last_dog_seen := last_dog_time
    timestamp := now }

/-- The notification cooldown test inlined in `main`:
`if now - last_notified > NOTIFY_COOLDOWN`. -/
def should_notify (now last_notified cooldown : ℚ) : Bool :=
  now - last_notified > cooldown

/-- The mutable state the detection loop carries across cycles:
`last_notified` (initialized to the sentinel `0`), `last_dog_time`
(initialized to `None`) and the frame directory. -/
structure LoopState where
  last_notified : ℚ
  last_dog_time : Option DateTime
  frames : FrameDir
deriving DecidableEq

/-- The loop state right before the first cycle of `main`. -/
def init_loop_state : LoopState :=
  { last_notified := 0, last_dog_time := none, frames := [] }

/-- The externally observable events one cycle can emit, in program order. -/
inductive Ev where
  | frameSaved (name bytes : Nat)
  | notified (t : ℚ)
  | published (st : SystemStatus)
  | errorLogged
deriving DecidableEq

/-- The inputs one iteration of the `while True` loop consumes: the raw
inference output of the captured request, `datetime.now()` at save time,
`time.time()` at the cooldown check, and the pixel bytes
`request.make_array('main')` of the same request. -/
structure CycleInput where
  raw : Option RawOutput
  capture_time : DateTime
  now : ℚ
  frame_bytes : Nat
deriving DecidableEq

/-- One iteration of the detection loop in `main`: decode and analyze; on a
human, publish privacy status and touch nothing else; otherwise, when dogs
were counted, save the frame, remember the sighting, prune, run the cooldown
check, and finally publish; when idle just publish.  An exception escaping
the body (a decode failure) is caught by the `except` clause: it is logged
and the loop continues with the state unchanged — in particular no status is
written in that cycle. -/
def run_cycle (cfg : Config) (labels : List String) (inp : CycleInput)
    (st : LoopState) : List Ev × LoopState :=
  match analyze_frame cfg labels inp.raw with
  | .error _ => ([.errorLogged], st)
  | .ok res =>
    if res.human_detected then
      ([.published (update_status res.dog_count true st.last_dog_time inp.capture_time)],
        st)
    else if 0 < res.dog_count then
      let name := frame_filename_key inp.capture_time
      let dir1 := write_frame st.frames name inp.frame_bytes
      let dir2 := (prune_old_frames cfg.max_kept_frames dir1).1
      let notify := should_notify inp.now st.last_notified cfg.notify_cooldown
      ([Ev.frameSaved name inp.frame_bytes]
          ++ (if notify then [Ev.notified inp.now] else [])
          ++ [Ev.published (update_status res.dog_count false
                (some inp.capture_time) inp.capture_time)],
        { last_notified := if notify then inp.now else st.last_notified
          last_dog_time := some inp.capture_time
          frames := dir2 })
    else
      ([.published (update_status res.dog_count false st.last_dog_time inp.capture_time)],
        st)

/-- Number of status publishes in a cycle's event list. -/
def count_published : List Ev → Nat
  | [] => 0
  | Ev.published _ :: es => count_published es + 1
  | _ :: es => count_published es

/-- The throttle over a whole run: the `time.time()` values of the cycles
that reached the cooldown check, threaded through `last_notified`; returns
the times at which a notification was actually dispatched. -/
def run_throttle (cooldown : ℚ) : List ℚ → ℚ → List ℚ
  | [], _ => []
  | t :: ts, last =>
    if should_notify t last cooldown then t :: run_throttle cooldown ts t
    else run_throttle cooldown ts last

/-- A sequence of `put` calls (filename key and bytes), each followed by the
prune `main` performs after every save. -/
def apply_puts (max_kept : Nat) : List (Nat × Nat) → FrameDir → FrameDir
  | [], dir => dir
  | (n, b) :: ops, dir =>
    apply_puts max_kept ops (prune_old_frames max_kept (write_frame dir n b)).1

/-- A JSON scalar as it appears in the status document. -/
inductive JsonValue where
  | jbool (b : Bool)
  | jnat (n : Nat)
  | jstr (s : String)
  | jnull
deriving DecidableEq

/-- The literal default document returned by the `/api/status` handler when
`status.json` does not exist yet (`except FileNotFoundError`). -/
def default_idle_status : List (String × JsonValue) :=
  [("dog_detected", .jbool false), ("dog_count", .jnat 0),
   ("human_detected", .jbool false), ("privacy_mode", .jbool false),
   ("last_dog_seen", .jnull)]

/-- The `/api/status` read: the stored document when one has been written,
else the default. -/
def api_status (stored : Option (List (String × JsonValue))) :
    List (String × JsonValue) :=
  match stored with
  | some doc => doc
  | none => default_idle_status

/-- The condition under which a detection increments `dog_count` in
`analyze_frame`: target label, confidence at or above
`DOG_CONFIDENCE_THRESHOLD`, and ROI overlap at or above
`ROI_OVERLAP_THRESHOLD`. -/
def dog_qualifies (cfg : Config) (d : Detection) : Bool :=
  decide (d.label = cfg.dog_class ∧ d.score ≥ cfg.dog_confidence_threshold ∧
    bbox_overlap_fraction d.bbox cfg.couch_roi ≥ cfg.roi_overlap_threshold)

theorem analyze_step_dog_count (cfg : Config) (acc : AnalysisResult) (d : Detection) :
    (analyze_step cfg acc d).dog_count =
      if dog_qualifies cfg d then acc.dog_count + 1 else acc.dog_count := by
  unfold analyze_step dog_qualifies
  by_cases hA : d.label = cfg.dog_class <;>
    by_cases hB : d.score ≥ cfg.dog_confidence_threshold <;>
    by_cases hC : bbox_overlap_fraction d.bbox cfg.couch_roi ≥ cfg.roi_overlap_threshold <;>
    by_cases hP : d.label = cfg.person_class ∧ d.score ≥ cfg.person_confidence_threshold <;>
    simp [hA, hB, hC, hP] <;> split_ifs <;> simp_all

theorem analyze_step_max_conf (cfg : Config) (acc : AnalysisResult) (d : Detection) :
    (analyze_step cfg acc d).max_dog_confidence =
      if dog_qualifies cfg d then max acc.max_dog_confidence d.score
      else acc.max_dog_confidence := by
  unfold analyze_step dog_qualifies
  by_cases hA : d.label = cfg.dog_class <;>
    by_cases hB : d.score ≥ cfg.dog_confidence_threshold <;>
    by_cases hC : bbox_overlap_fraction d.bbox cfg.couch_roi ≥ cfg.roi_overlap_threshold <;>
    by_cases hP : d.label = cfg.person_class ∧ d.score ≥ cfg.person_confidence_threshold <;>
    simp [hA, hB, hC, hP] <;> split_ifs <;> simp_all

theorem analyze_step_human (cfg : Config) (acc : AnalysisResult) (d : Detection) :
    ((analyze_step cfg acc d).human_detected = true ↔
      (acc.human_detected = true ∨
        (d.label = cfg.person_class ∧ d.score ≥ cfg.person_confidence_threshold))) := by
  unfold analyze_step
  by_cases hA : d.label = cfg.dog_class <;>
    by_cases hB : d.score ≥ cfg.dog_confidence_threshold <;>
    by_cases hC : bbox_overlap_fraction d.bbox cfg.couch_roi ≥ cfg.roi_overlap_threshold <;>
    by_cases hP : d.label = cfg.person_class ∧ d.score ≥ cfg.person_confidence_threshold <;>
    simp [hA, hB, hC, hP] <;> split_ifs <;> simp_all

theorem foldl_dog_count (cfg : Config) (dets : List Detection) : ∀ acc : AnalysisResult,
    (dets.foldl (analyze_step cfg) acc).dog_count =
      acc.dog_count + (dets.filter (dog_qualifies cfg)).length := by
  induction dets with
  | nil => intro acc; simp
  | cons d tl ih =>
    intro acc
    rw [List.foldl_cons, ih, List.filter_cons, analyze_step_dog_count]
    by_cases h : dog_qualifies cfg d <;> simp [h] <;> omega

theorem foldl_max_conf (cfg : Config) (dets : List Detection) : ∀ acc : AnalysisResult,
    (dets.foldl (analyze_step cfg) acc).max_dog_confidence =
      ((dets.filter (dog_qualifies cfg)).map Detection.score).foldl
        max acc.max_dog_confidence := by
  induction dets with
  | nil => intro acc; simp
  | cons d tl ih =>
    intro acc
    rw [List.foldl_cons, ih, List.filter_cons]
    by_cases h : dog_qualifies cfg d <;>
      simp [h, analyze_step_max_conf]

theorem foldl_human (cfg : Config) (dets : List Detection) : ∀ acc : AnalysisResult,
    ((dets.foldl (analyze_step cfg) acc).human_detected = true ↔
      (acc.human_detected = true ∨ ∃ d ∈ dets,
        d.label = cfg.person_class ∧ d.score ≥ cfg.person_confidence_threshold)) := by
  induction dets with
  | nil => intro acc; simp
  | cons d tl ih =>
    intro acc
    rw [List.foldl_cons, ih]
    rw [analyze_step_human]
    simp only [List.mem_cons]
    constructor
    · rintro (( h | h) | ⟨e, he, hp⟩)
      · exact Or.inl h
      · exact Or.inr ⟨d, Or.inl rfl, h⟩
      · exact Or.inr ⟨e, Or.inr he, hp⟩
    · rintro (h | ⟨e, (rfl | he), hp⟩)
      · exact Or.inl (Or.inl h)
      · exact Or.inl (Or.inr hp)
      · exact Or.inr ⟨e, he, hp⟩

/-- C2: the restricted-subject check is unconditional and ROI-independent —
any detection in the sequence whose label is the restricted class and whose
confidence is at least `PERSON_CONFIDENCE_THRESHOLD` forces
`human_detected = true` in the analysis result, whatever its bounding box
and whatever the other detections are. -/
theorem c2_restricted_unconditional (cfg : Config) (dets : List Detection)
    (d : Detection) (hmem : d ∈ dets) (hlabel : d.label = cfg.person_class)
    (hconf : d.score ≥ cfg.person_confidence_threshold) :
    (analyze_detections cfg dets).human_detected = true := by
  unfold analyze_detections
  exact (foldl_human cfg dets _).mpr (Or.inr ⟨d, hmem, hlabel, hconf⟩)

/-- C2 witness: the spec's example — a person at confidence 0.35 anywhere in
frame (here a corner sliver outside no ROI) plus a dog at 0.90; the person
detection alone forces `human_detected = true`. -/
theorem c2_restricted_unconditional_witness :
    (analyze_detections dogwatch_config
      [⟨"person", 35/100, ⟨0, 0, 1/100, 1/100⟩⟩,
       ⟨"dog", 9/10, ⟨3/10, 3/10, 6/10, 6/10⟩⟩]).human_detected = true :=
  c2_restricted_unconditional dogwatch_config _
    ⟨"person", 35/100, ⟨0, 0, 1/100, 1/100⟩⟩ (by simp) rfl (by norm_num [dogwatch_config])

/-- C3: target counting — `dog_count` is exactly the number of detections
whose label is the target class, whose confidence is at least
`DOG_CONFIDENCE_THRESHOLD` and whose bbox-to-ROI overlap fraction is at
least `ROI_OVERLAP_THRESHOLD`; `max_dog_confidence` is the running maximum
(from `0.0`) of exactly those detections' confidences; and the spec's
example `[(dog, 0.62, (0.3, 0.3, 0.6, 0.6))]` with the full-frame ROI
yields `dog_count = 1` and `max_dog_confidence = 0.62`. -/
theorem c3_target_counting :
    (∀ (cfg : Config) (dets : List Detection),
      (analyze_detections cfg dets).dog_count =
        (dets.filter (dog_qualifies cfg)).length ∧
      (analyze_detections cfg dets).max_dog_confidence =
        ((dets.filter (dog_qualifies cfg)).map Detection.score).foldl max 0) ∧
    analyze_detections dogwatch_config
      [⟨"dog", 62/100, ⟨3/10, 3/10, 6/10, 6/10⟩⟩] = ⟨1, 62/100, false⟩ := by
  constructor
  · intro cfg dets
    constructor
    · rw [analyze_detections, foldl_dog_count]; simp
    · rw [analyze_detections, foldl_max_conf]
  · norm_num [analyze_detections, analyze_step, dogwatch_config,
      bbox_overlap_fraction, min_def, max_def]
    rw [if_neg (show ¬(("dog" : String) = "person") by decide)]
    norm_num

theorem bbox_overlap_fraction_nonneg_le_one (b r : Rect) :
    0 ≤ bbox_overlap_fraction b r ∧ bbox_overlap_fraction b r ≤ 1 := by
  simp only [bbox_overlap_fraction]
  split_ifs with h1 h2
  · norm_num
  · norm_num
  · push_neg at h1 h2
    obtain ⟨hx, hy⟩ := h1
    constructor
    · apply div_nonneg
      · apply mul_nonneg <;> linarith
      · linarith
    · rw [div_le_one h2]
      have hx1 : min b.x2 r.x2 - max b.x1 r.x1 ≤ b.x2 - b.x1 := by
        have h3 := min_le_left b.x2 r.x2
        have h4 := le_max_left b.x1 r.x1
        linarith
      have hy1 : min b.y2 r.y2 - max b.y1 r.y1 ≤ b.y2 - b.y1 := by
        have h3 := min_le_left b.y2 r.y2
        have h4 := le_max_left b.y1 r.y1
        linarith
      exact mul_le_mul hx1 hy1 (by linarith) (by linarith)

theorem bbox_overlap_fraction_disjoint (b r : Rect) (h : RectDisjoint b r) :
    bbox_overlap_fraction b r = 0 := by
  have hc : max b.x1 r.x1 ≥ min b.x2 r.x2 ∨ max b.y1 r.y1 ≥ min b.y2 r.y2 := by
    rcases h with h | h | h | h
    · left
      have h3 := min_le_left b.x2 r.x2
      have h4 := le_max_right b.x1 r.x1
      linarith
    · left
      have h3 := min_le_right b.x2 r.x2
      have h4 := le_max_left b.x1 r.x1
      linarith
    · right
      have h3 := min_le_left b.y2 r.y2
      have h4 := le_max_right b.y1 r.y1
      linarith
    · right
      have h3 := min_le_right b.y2 r.y2
      have h4 := le_max_left b.y1 r.y1
      linarith
  simp only [bbox_overlap_fraction]
  rw [if_pos hc]

theorem bbox_overlap_fraction_degenerate (b r : Rect)
    (h : (b.x2 - b.x1) * (b.y2 - b.y1) = 0) : bbox_overlap_fraction b r = 0 := by
  simp only [bbox_overlap_fraction]
  split_ifs with h1 h2
  · rfl
  · rfl
  · exact absurd (le_of_eq h) h2

theorem bbox_overlap_fraction_inside (b r : Rect) (hb : NormalizedRect b)
    (hin : RectInside b r) (hpos : 0 < (b.x2 - b.x1) * (b.y2 - b.y1)) :
    bbox_overlap_fraction b r = 1 := by
  obtain ⟨hbx1, hbx12, hbx2, hby1, hby12, hby2⟩ := hb
  obtain ⟨h1, h2, h3, h4⟩ := hin
  have hxpos : 0 < b.x2 - b.x1 := by nlinarith
  have hypos : 0 < b.y2 - b.y1 := by nlinarith
  simp only [bbox_overlap_fraction]
  rw [max_eq_left h1, max_eq_left h3, min_eq_left h2, min_eq_left h4]
  have hc1 : ¬(b.x1 ≥ b.x2 ∨ b.y1 ≥ b.y2) := by
    push_neg
    constructor <;> linarith
  have hc2 : ¬((b.x2 - b.x1) * (b.y2 - b.y1) ≤ 0) := not_le.mpr hpos
  rw [if_neg hc1, if_neg hc2]
  exact div_self (ne_of_gt hpos)

/-- C4 counterexample: the degenerate box `(0.5, 0.5, 0.5, 0.5)` is a
normalized rectangle lying fully inside the full-frame ROI, yet
`bbox_overlap_fraction` returns `0`, not the `1` the claim's
fully-inside clause demands. -/
theorem c4_counterexample :
    NormalizedRect ⟨1/2, 1/2, 1/2, 1/2⟩ ∧ NormalizedRect ⟨0, 0, 1, 1⟩ ∧
    RectInside ⟨1/2, 1/2, 1/2, 1/2⟩ ⟨0, 0, 1, 1⟩ ∧
    bbox_overlap_fraction ⟨1/2, 1/2, 1/2, 1/2⟩ ⟨0, 0, 1, 1⟩ = 0 ∧
    bbox_overlap_fraction ⟨1/2, 1/2, 1/2, 1/2⟩ ⟨0, 0, 1, 1⟩ ≠ 1 := by
  norm_num [NormalizedRect, RectInside, bbox_overlap_fraction, min_def, max_def]

/-- C4 amended: for normalized rectangles the overlap fraction lies in
`[0, 1]`; it is `0` when the rectangles are disjoint or the detection box
has zero area; and it is `1` when the detection box is fully inside the ROI
*and has positive area* (a zero-area box inside the ROI yields `0`, not
`1`). -/
theorem c4_overlap_bounds (b r : Rect) (hb : NormalizedRect b)
    (hr : NormalizedRect r) :
    (0 ≤ bbox_overlap_fraction b r ∧ bbox_overlap_fraction b r ≤ 1) ∧
    (RectDisjoint b r → bbox_overlap_fraction b r = 0) ∧
    ((b.x2 - b.x1) * (b.y2 - b.y1) = 0 → bbox_overlap_fraction b r = 0) ∧
    (RectInside b r → 0 < (b.x2 - b.x1) * (b.y2 - b.y1) →
      bbox_overlap_fraction b r = 1) :=
  ⟨bbox_overlap_fraction_nonneg_le_one b r,
   bbox_overlap_fraction_disjoint b r,
   bbox_overlap_fraction_degenerate b r,
   fun hin hpos => bbox_overlap_fraction_inside b r hb hin hpos⟩

/-- The upper-left quadrant box used as a concrete witness input. -/
def quadrant_box : Rect := ⟨0, 0, 1/2, 1/2⟩

/-- The full-frame rectangle, the value of `COUCH_ROI` in the source. -/
def full_frame : Rect := ⟨0, 0, 1, 1⟩

/-- C4 witness: the amended theorem applied at the quadrant box against the
full frame. -/
theorem c4_overlap_bounds_witness :
    (0 ≤ bbox_overlap_fraction quadrant_box full_frame ∧
      bbox_overlap_fraction quadrant_box full_frame ≤ 1) ∧
    (RectDisjoint quadrant_box full_frame →
      bbox_overlap_fraction quadrant_box full_frame = 0) ∧
    ((quadrant_box.x2 - quadrant_box.x1) * (quadrant_box.y2 - quadrant_box.y1) = 0 →
      bbox_overlap_fraction quadrant_box full_frame = 0) ∧
    (RectInside quadrant_box full_frame →
      0 < (quadrant_box.x2 - quadrant_box.x1) * (quadrant_box.y2 - quadrant_box.y1) →
      bbox_overlap_fraction quadrant_box full_frame = 1) :=
  c4_overlap_bounds quadrant_box full_frame
    (by norm_num [NormalizedRect, quadrant_box])
    (by norm_num [NormalizedRect, full_frame])

/-- C1: privacy invariant — when the analysis of a cycle reports a human,
the cycle writes no frame artifact, dispatches no notification, leaves the
loop state (frame store, throttle timestamp, last sighting) untouched, and
emits exactly one event: the status publish. -/
theorem c1_privacy_gate (cfg : Config) (labels : List String) (inp : CycleInput)
    (st : LoopState) (res : AnalysisResult)
    (hok : analyze_frame cfg labels inp.raw = .ok res)
    (hhuman : res.human_detected = true) :
    (run_cycle cfg labels inp st).1 =
      [Ev.published (update_status res.dog_count true st.last_dog_time
        inp.capture_time)] ∧
    (run_cycle cfg labels inp st).2 = st ∧
    (∀ n b, Ev.frameSaved n b ∉ (run_cycle cfg labels inp st).1) ∧
    (∀ t, Ev.notified t ∉ (run_cycle cfg labels inp st).1) := by
  have h1 : run_cycle cfg labels inp st =
      ([Ev.published (update_status res.dog_count true st.last_dog_time
        inp.capture_time)], st) := by
    unfold run_cycle
    rw [hok]
    simp [hhuman]
  rw [h1]
  refine ⟨rfl, rfl, fun n b => ?_, fun t => ?_⟩ <;> simp

/-- The raw output of a cycle seeing one person at confidence 0.35. -/
def person_raw : RawOutput := ⟨[⟨0, 0, 1/10, 1/10⟩], [0], [35/100], 1⟩

/-- A concrete cycle input carrying `person_raw`. -/
def person_input : CycleInput := ⟨some person_raw, ⟨2026, 1, 2, 3, 4, 5, 6⟩, 100, 7⟩

/-- C1 witness: the privacy gate theorem applied to a cycle that saw one
person at confidence 0.35 from the initial loop state. -/
theorem c1_privacy_gate_witness :
    (run_cycle dogwatch_config ["person"] person_input init_loop_state).1 =
      [Ev.published (update_status 0 true init_loop_state.last_dog_time
        person_input.capture_time)] ∧
    (run_cycle dogwatch_config ["person"] person_input init_loop_state).2 =
      init_loop_state ∧
    (∀ n b, Ev.frameSaved n b ∉
      (run_cycle dogwatch_config ["person"] person_input init_loop_state).1) ∧
    (∀ t, Ev.notified t ∉
      (run_cycle dogwatch_config ["person"] person_input init_loop_state).1) :=
  c1_privacy_gate dogwatch_config ["person"] person_input init_loop_state
    ⟨0, 0, true⟩
    (by
      have hp : parse_detections ["person"] person_input.raw =
          .ok [⟨"person", 35/100, ⟨0, 0, 1/10, 1/10⟩⟩] := rfl
      unfold analyze_frame
      rw [hp]
      simp only [Except.map]
      norm_num [analyze_detections, analyze_step, dogwatch_config,
        bbox_overlap_fraction, min_def, max_def])
    rfl

theorem prune_kept_length (K : Nat) (dir : FrameDir) :
    (prune_old_frames K dir).1.length ≤ K := by
  simp only [prune_old_frames, List.length_drop]
  omega

theorem prune_evicted_sorted (K : Nat) (dir : FrameDir) :
    List.Sorted key_le (prune_old_frames K dir).2 := by
  simp only [prune_old_frames]
  exact List.Pairwise.sublist (List.take_sublist _ _)
    (List.sorted_insertionSort key_le dir)

theorem prune_evicted_le_kept (K : Nat) (dir : FrameDir) :
    ∀ e ∈ (prune_old_frames K dir).2, ∀ k ∈ (prune_old_frames K dir).1,
      e.1 ≤ k.1 := by
  simp only [prune_old_frames]
  intro e he k hk
  have hs : List.Sorted key_le (List.insertionSort key_le dir) :=
    List.sorted_insertionSort key_le dir
  rw [← List.take_append_drop
    ((List.insertionSort key_le dir).length - K) (List.insertionSort key_le dir),
    List.Sorted, List.pairwise_append] at hs
  exact hs.2.2 e he k hk

theorem apply_puts_length_le (K : Nat) (ops : List (Nat × Nat)) :
    ∀ dir : FrameDir, dir.length ≤ K → (apply_puts K ops dir).length ≤ K := by
  induction ops with
  | nil => intro dir h; exact h
  | cons op tl ih =>
    intro dir h
    obtain ⟨n, b⟩ := op
    simp only [apply_puts]
    exact ih _ (prune_kept_length K _)

/-- C5: the frame store stays bounded and evicts oldest-first — pruning
keeps at most `MAX_KEPT_FRAMES` entries, the evicted entries are removed in
ascending filename order (which, by the sortable timestamp encoding, is
ascending creation-time order), every evicted entry's key is at most every
kept entry's key, and after any sequence of save-then-prune steps starting
within the bound the store still holds at most `MAX_KEPT_FRAMES` entries. -/
theorem c5_frame_store_bound (K : Nat) (dir dir0 : FrameDir)
    (ops : List (Nat × Nat)) (h0 : dir0.length ≤ K) :
    (prune_old_frames K dir).1.length ≤ K ∧
    List.Sorted key_le (prune_old_frames K dir).2 ∧
    (∀ e ∈ (prune_old_frames K dir).2, ∀ k ∈ (prune_old_frames K dir).1,
      e.1 ≤ k.1) ∧
    (apply_puts K ops dir0).length ≤ K :=
  ⟨prune_kept_length K dir, prune_evicted_sorted K dir,
   prune_evicted_le_kept K dir, apply_puts_length_le K ops dir0 h0⟩

/-- A concrete over-full frame directory used as witness input. -/
def crowded_dir : FrameDir := [(3, 30), (1, 10), (2, 20)]

/-- C5 witness: the bound theorem applied with capacity 2 to a directory of
three frames and a run of three further saves from the empty store. -/
theorem c5_frame_store_bound_witness :
    (prune_old_frames 2 crowded_dir).1.length ≤ 2 ∧
    List.Sorted key_le (prune_old_frames 2 crowded_dir).2 ∧
    (∀ e ∈ (prune_old_frames 2 crowded_dir).2,
      ∀ k ∈ (prune_old_frames 2 crowded_dir).1, e.1 ≤ k.1) ∧
    (apply_puts 2 [(5, 50), (4, 40), (6, 60)] []).length ≤ 2 :=
  c5_frame_store_bound 2 crowded_dir [] [(5, 50), (4, 40), (6, 60)]
    (by simp)

theorem run_throttle_gt (cooldown : ℚ) (hc : 0 ≤ cooldown) (ts : List ℚ) :
    ∀ last : ℚ, ∀ d ∈ run_throttle cooldown ts last, last + cooldown < d := by
  induction ts with
  | nil => intro last d hd; simp [run_throttle] at hd
  | cons t tl ih =>
    intro last d hd
    rw [run_throttle] at hd
    by_cases h : should_notify t last cooldown = true
    · rw [if_pos h] at hd
      simp only [should_notify, decide_eq_true_eq] at h
      rcases List.mem_cons.mp hd with rfl | hd2
      · linarith
      · have := ih t d hd2
        linarith
    · rw [if_neg h] at hd
      exact ih last d hd

theorem run_throttle_pairwise (cooldown : ℚ) (hc : 0 ≤ cooldown) (ts : List ℚ) :
    ∀ last : ℚ,
    List.Pairwise (fun a b => a + cooldown < b) (run_throttle cooldown ts last) := by
  induction ts with
  | nil => intro last; simp [run_throttle]
  | cons t tl ih =>
    intro last
    rw [run_throttle]
    by_cases h : should_notify t last cooldown = true
    · rw [if_pos h]
      exact List.Pairwise.cons (fun d hd => run_throttle_gt cooldown hc tl t d hd) (ih t)
    · rw [if_neg h]
      exact ih last

theorem pairwise_rel_of_mem {α : Type} {R : α → α → Prop} :
    ∀ {l : List α}, List.Pairwise R l → ∀ {a b : α}, a ∈ l → b ∈ l →
      a = b ∨ R a b ∨ R b a := by
  intro l hl
  induction hl with
  | nil => intro a b ha _; simp at ha
  | cons hhead _ ih =>
    intro a b ha hb
    rcases List.mem_cons.mp ha with rfl | ha2
    · rcases List.mem_cons.mp hb with rfl | hb2
      · exact Or.inl rfl
      · exact Or.inr (Or.inl (hhead b hb2))
    · rcases List.mem_cons.mp hb with rfl | hb2
      · exact Or.inr (Or.inr (hhead a ha2))
      · exact ih ha2 hb2

/-- C6 counterexample: in the initial loop state no notification has ever
been sent — `last_notified` holds the sentinel `0` set at loop start — yet
at `now = 50` with cooldown 60 the inlined check `now - last_notified >
NOTIFY_COOLDOWN` does not dispatch, though the claim's "no prior send
exists" disjunct says the decision must be true. -/
theorem c6_counterexample :
    init_loop_state.last_notified = 0 ∧
    should_notify 50 init_loop_state.last_notified 60 = false := by
  constructor
  · rfl
  · simp only [should_notify, init_loop_state, decide_eq_false_iff_not]
    norm_num

/-- C6 amended: the throttle decision returns true (and `main` then records
`now` in `last_notified`) exactly when `now - last_notified > cooldown`,
where `last_notified` is the sentinel `0` before any send; consequently any
two dispatch times of a run differ by more than the cooldown, so at most one
dispatch falls in any closed window of length `cooldown`. -/
theorem c6_throttle (cooldown last w t1 t2 : ℚ) (ts : List ℚ)
    (hc : 0 ≤ cooldown)
    (h1 : t1 ∈ run_throttle cooldown ts last)
    (h2 : t2 ∈ run_throttle cooldown ts last)
    (hw1 : w ≤ t1) (hw2 : t1 ≤ w + cooldown)
    (hw3 : w ≤ t2) (hw4 : t2 ≤ w + cooldown) :
    t1 = t2 ∧ (∀ now l c : ℚ, (should_notify now l c = true ↔ now - l > c)) := by
  constructor
  · rcases pairwise_rel_of_mem (run_throttle_pairwise cooldown hc ts last) h1 h2
      with h | h | h
    · exact h
    · linarith
    · linarith
  · intro now l c
    simp [should_notify]

/-- C6 witness: the amended throttle theorem applied to a run over cycle
times 100, 110, 200 with cooldown 60 and the window `[90, 150]`, which
contains only the dispatch at time 100. -/
theorem c6_throttle_witness :
    (100 : ℚ) = 100 ∧ (∀ now l c : ℚ, (should_notify now l c = true ↔ now - l > c)) :=
  c6_throttle 60 0 90 100 100 [100, 110, 200] (by norm_num)
    (by norm_num [run_throttle, should_notify])
    (by norm_num [run_throttle, should_notify])
    (by norm_num) (by norm_num) (by norm_num) (by norm_num)

/-- A raw output whose declared count (2) exceeds every array length (1):
the malformed shape of claim C8. -/
def malformed_raw : RawOutput := ⟨[⟨0, 0, 1/10, 1/10⟩], [0], [35/100], 2⟩

/-- A concrete cycle input carrying `malformed_raw`. -/
def malformed_input : CycleInput := ⟨some malformed_raw, ⟨2026, 1, 2, 3, 4, 5, 6⟩, 100, 7⟩

/-- A concrete cycle input with no inference output yet (`None`), the
transient empty-detection condition. -/
def empty_input : CycleInput := ⟨none, ⟨2026, 1, 2, 3, 4, 5, 6⟩, 100, 7⟩

/-- C7 counterexample: a cycle whose decode raises (declared count 2,
arrays of length 1) publishes no status at all — the exception skips
`update_status` — refuting "status is published exactly once in every
cycle, an error occurring anywhere included". -/
theorem c7_counterexample :
    (run_cycle dogwatch_config ["person"] malformed_input init_loop_state).1 =
      [Ev.errorLogged] ∧
    count_published (run_cycle dogwatch_config ["person"] malformed_input
      init_loop_state).1 = 0 := by
  constructor <;> rfl

/-- C7 amended: in a cycle whose decode succeeds, the status is published
exactly once, as the final event after any frame save and notification
decision; in a cycle aborted by an exception (decode failure) the error is
logged and no status is published. -/
theorem c7_status_publish (cfg : Config) (labels : List String)
    (inp : CycleInput) (st : LoopState) :
    (∀ res, analyze_frame cfg labels inp.raw = .ok res →
      count_published (run_cycle cfg labels inp st).1 = 1 ∧
      ∃ s pre, (run_cycle cfg labels inp st).1 = pre ++ [Ev.published s]) ∧
    (∀ e, analyze_frame cfg labels inp.raw = .error e →
      (run_cycle cfg labels inp st).1 = [Ev.errorLogged] ∧
      count_published (run_cycle cfg labels inp st).1 = 0) := by
  constructor
  · intro res hok
    unfold run_cycle
    rw [hok]
    by_cases hh : res.human_detected = true
    · simp only [hh]
      exact ⟨rfl, _, [], rfl⟩
    · simp only [hh]
      by_cases hd : 0 < res.dog_count
      · simp only [hd, if_true, if_pos hd, Bool.false_eq_true, if_neg hh]
        by_cases hn : should_notify inp.now st.last_notified cfg.notify_cooldown = true
        · simp only [hn, if_pos hn]
          constructor
          · simp [count_published]
          · exact ⟨update_status res.dog_count false (some inp.capture_time)
              inp.capture_time,
              [Ev.frameSaved (frame_filename_key inp.capture_time)
                inp.frame_bytes] ++ [Ev.notified inp.now], by simp⟩
        · simp only [if_neg hn]
          constructor
          · simp [count_published]
          · exact ⟨update_status res.dog_count false (some inp.capture_time)
              inp.capture_time,
              [Ev.frameSaved (frame_filename_key inp.capture_time)
                inp.frame_bytes] ++ [], by simp⟩
      · simp only [if_neg hd, if_neg hh]
        exact ⟨rfl, _, [], rfl⟩
  · intro e herr
    unfold run_cycle
    rw [herr]
    exact ⟨rfl, rfl⟩

/-- C7 witness: the amended theorem's no-exception half applied to an idle
cycle (no inference output yet) — exactly one publish, and it is last. -/
theorem c7_status_publish_witness :
    count_published
      (run_cycle dogwatch_config ["person"] empty_input init_loop_state).1 = 1 ∧
    ∃ s pre, (run_cycle dogwatch_config ["person"] empty_input
      init_loop_state).1 = pre ++ [Ev.published s] :=
  (c7_status_publish dogwatch_config ["person"] empty_input init_loop_state).1
    ⟨0, 0, false⟩ rfl

/-- C8 counterexample: on internally inconsistent raw output
(count 2, arrays of length 1) the decoder fails — but the cycle does NOT
proceed as if no detections were present: a genuinely empty cycle publishes
an idle status, while the failed cycle only logs the error and publishes
nothing, so the two cycles are observably different. -/
theorem c8_counterexample :
    parse_detections ["person"] (some malformed_raw) =
      .error .indexOutOfRange ∧
    (run_cycle dogwatch_config ["person"] malformed_input init_loop_state).1 =
      [Ev.errorLogged] ∧
    (run_cycle dogwatch_config ["person"] empty_input init_loop_state).1 =
      [Ev.published (update_status 0 false none empty_input.capture_time)] ∧
    (run_cycle dogwatch_config ["person"] malformed_input init_loop_state).1 ≠
      (run_cycle dogwatch_config ["person"] empty_input init_loop_state).1 := by
  refine ⟨rfl, rfl, rfl, ?_⟩
  intro h
  simp only [show (run_cycle dogwatch_config ["person"] malformed_input
      init_loop_state).1 = [Ev.errorLogged] from rfl,
    show (run_cycle dogwatch_config ["person"] empty_input init_loop_state).1 =
      [Ev.published (update_status 0 false none empty_input.capture_time)]
      from rfl] at h
  exact absurd h (by simp)

/-- C8 amended: when the declared detection count exceeds the length of a
parallel array the decoder fails with a `DecodeError`; the cycle's `except`
clause logs it and the loop continues with the loop state unchanged, but the
remainder of the cycle — including the status publish — is skipped, rather
than proceeding as if the detection set were empty. -/
theorem c8_decode_error (labels : List String) (r : RawOutput) (cfg : Config)
    (inp : CycleInput) (st : LoopState)
    (hmal : ¬(r.num ≤ r.boxes.length ∧ r.num ≤ r.classes.length ∧
      r.num ≤ r.scores.length))
    (hraw : inp.raw = some r) :
    parse_detections labels (some r) = .error .indexOutOfRange ∧
    run_cycle cfg labels inp st = ([Ev.errorLogged], st) := by
  have hp : parse_detections labels (some r) = .error .indexOutOfRange := by
    simp only [parse_detections]
    rw [if_neg hmal]
  refine ⟨hp, ?_⟩
  unfold run_cycle analyze_frame
  rw [hraw, hp]
  rfl

/-- C8 witness: the amended theorem applied to the concrete malformed raw
output from the initial loop state. -/
theorem c8_decode_error_witness :
    parse_detections ["person"] (some malformed_raw) =
      .error .indexOutOfRange ∧
    run_cycle dogwatch_config ["person"] malformed_input init_loop_state =
      ([Ev.errorLogged], init_loop_state) :=
  c8_decode_error ["person"] malformed_raw dogwatch_config malformed_input
    init_loop_state (by decide) rfl

/-- C9 counterexample: the fallback document the `/api/status` handler
returns when `status.json` does not exist contains neither a
`recording_active` nor a `timestamp` entry, though the claim says the
default has the full seven-field status-document shape. -/
theorem c9_counterexample :
    (api_status none).lookup "recording_active" = none ∧
    (api_status none).lookup "timestamp" = none := by
  constructor <;> rfl

/-- C9 amended: if no status document has been written yet, the status read
returns a well-defined default idle document rather than an error — but the
default carries only `dog_detected = false`, `dog_count = 0`,
`human_detected = false`, `privacy_mode = false` and `last_dog_seen = null`;
the `recording_active` and `timestamp` fields of the per-cycle status
document are absent from it.  A stored document is returned unchanged. -/
theorem c9_default_status :
    api_status none = default_idle_status ∧
    (api_status none).map Prod.fst =
      ["dog_detected", "dog_count", "human_detected", "privacy_mode",
        "last_dog_seen"] ∧
    (api_status none).lookup "dog_detected" = some (.jbool false) ∧
    (api_status none).lookup "dog_count" = some (.jnat 0) ∧
    (api_status none).lookup "human_detected" = some (.jbool false) ∧
    (api_status none).lookup "privacy_mode" = some (.jbool false) ∧
    (api_status none).lookup "last_dog_seen" = some .jnull ∧
    (∀ doc, api_status (some doc) = doc) :=
  ⟨rfl, rfl, rfl, rfl, rfl, rfl, rfl, fun _ => rfl⟩

theorem write_frame_mem_self (dir : FrameDir) (n b : Nat) :
    (write_frame dir n b).any (fun e => e.1 = n) = true := by
  unfold write_frame
  split_ifs with h
  · rw [List.any_eq_true] at h ⊢
    obtain ⟨e, he, hkey⟩ := h
    simp only [decide_eq_true_eq] at hkey
    refine ⟨(n, b), ?_, by simp⟩
    rw [List.mem_map]
    exact ⟨e, he, by simp [hkey]⟩
  · rw [List.any_eq_true]
    exact ⟨(n, b), by simp, by simp⟩

theorem find_map_key (n b : Nat) : ∀ dir : FrameDir,
    dir.any (fun e => e.1 = n) = true →
    (dir.map (fun e => if e.1 = n then (n, b) else e)).find?
      (fun e => e.1 = n) = some (n, b) := by
  intro dir
  induction dir with
  | nil => intro h; simp at h
  | cons e tl ih =>
    intro h
    simp only [List.map_cons]
    by_cases he : e.1 = n
    · rw [if_pos he]
      exact List.find?_cons_of_pos _ (by simp)
    · rw [if_neg he, List.find?_cons_of_neg _ (by simp [he])]
      simp only [List.any_cons, Bool.or_eq_true, decide_eq_true_eq] at h
      rcases h with h | h
      · exact absurd h he
      · exact ih h

theorem find_append_key (n b : Nat) : ∀ dir : FrameDir,
    dir.any (fun e => e.1 = n) = false →
    (dir ++ [(n, b)]).find? (fun e => e.1 = n) = some (n, b) := by
  intro dir
  induction dir with
  | nil =>
    intro _
    rw [List.nil_append]
    exact List.find?_cons_of_pos _ (by simp)
  | cons e tl ih =>
    intro h
    simp only [List.any_cons, Bool.or_eq_false_iff,
      decide_eq_false_iff_not] at h
    rw [List.cons_append, List.find?_cons_of_neg _ (by simp [h.1])]
    exact ih (by simp [h.2])

theorem read_frame_write_frame (dir : FrameDir) (n b : Nat) :
    read_frame (write_frame dir n b) n = some b := by
  unfold read_frame write_frame
  split_ifs with h
  · rw [find_map_key n b dir h]
    rfl
  · rw [find_append_key n b dir (Bool.eq_false_iff.mpr h)]
    rfl

theorem write_frame_overwrite_length (dir : FrameDir) (n b1 b2 : Nat) :
    (write_frame (write_frame dir n b1) n b2).length =
      (write_frame dir n b1).length := by
  have hmem := write_frame_mem_self dir n b1
  generalize hdef : write_frame dir n b1 = dir1 at hmem
  unfold write_frame
  rw [if_pos hmem]
  simp

/-- C10: frame keys have one-second resolution — two capture timestamps in
the same wall-clock second yield the same filename, so the second save
overwrites the first artifact in place: the store size does not grow, the
key now maps to the second frame's bytes, and (when the bytes differ) the
first frame's bytes are no longer retrievable under that key. -/
theorem c10_same_second_overwrite (t1 t2 : DateTime) (hs : SameSecond t1 t2)
    (dir : FrameDir) (b1 b2 : Nat) :
    frame_filename_key t1 = frame_filename_key t2 ∧
    (write_frame (write_frame dir (frame_filename_key t1) b1)
      (frame_filename_key t2) b2).length =
      (write_frame dir (frame_filename_key t1) b1).length ∧
    read_frame (write_frame (write_frame dir (frame_filename_key t1) b1)
      (frame_filename_key t2) b2) (frame_filename_key t1) = some b2 ∧
    (b1 ≠ b2 →
      read_frame (write_frame (write_frame dir (frame_filename_key t1) b1)
        (frame_filename_key t2) b2) (frame_filename_key t1) ≠ some b1) := by
  obtain ⟨hy, hmo, hd, hh, hmi, hsec⟩ := hs
  have hk : frame_filename_key t1 = frame_filename_key t2 := by
    unfold frame_filename_key
    rw [hy, hmo, hd, hh, hmi, hsec]
  rw [← hk]
  refine ⟨rfl, write_frame_overwrite_length dir _ b1 b2,
    read_frame_write_frame _ _ b2, fun hne hread => ?_⟩
  rw [read_frame_write_frame _ _ b2] at hread
  exact hne (Option.some_injective _ hread).symm

/-- Two capture instants inside the same wall-clock second (different
microseconds). -/
def instant_a : DateTime := ⟨2026, 1, 2, 3, 4, 5, 111⟩

/-- The same second as `instant_a`, later microsecond. -/
def instant_b : DateTime := ⟨2026, 1, 2, 3, 4, 5, 999⟩

/-- C10 witness: the collision theorem applied to two saves within the same
second from an empty frame directory. -/
theorem c10_same_second_overwrite_witness :
    frame_filename_key instant_a = frame_filename_key instant_b ∧
    (write_frame (write_frame [] (frame_filename_key instant_a) 1)
      (frame_filename_key instant_b) 2).length =
      (write_frame [] (frame_filename_key instant_a) 1).length ∧
    read_frame (write_frame (write_frame [] (frame_filename_key instant_a) 1)
      (frame_filename_key instant_b) 2) (frame_filename_key instant_a) =
      some 2 ∧
    ((1 : Nat) ≠ 2 →
      read_frame (write_frame (write_frame [] (frame_filename_key instant_a) 1)
        (frame_filename_key instant_b) 2) (frame_filename_key instant_a) ≠
        some 1) :=
  c10_same_second_overwrite instant_a instant_b (by decide) [] 1 2
